import Mathlib

/-!
Verification development for the plugin update mechanism of the satori agent
(file src/agent/plugins/update.go).  The Go functions are shallowly embedded
as executable Lean definitions: pure string processing is translated
directly; external effects (git subprocesses, the filesystem, the metrics
sink, the Ed25519 library) are modelled as oracle fields of an environment
record, and each embedded operation returns its result together with the
list of externally observable effects it performs, in execution order.
-/

deriving instance DecidableEq for Except

namespace Satori

/-! ## Go string primitives (strings.Split, TrimSpace, HasPrefix, Fields) -/

/-- Whitespace predicate of Go's unicode.IsSpace, restricted to the ASCII
whitespace characters (the only ones arising in this development). -/
def isSpaceGo (c : Char) : Bool :=
  c = ' ' || c = '\t' || c = '\n' || c = (Char.ofNat 11) || c = (Char.ofNat 12) || c = '\r'

/-- Model of strings.TrimSpace on a character list: drop leading and
trailing whitespace. -/
def trimChars (cs : List Char) : List Char :=
  ((cs.dropWhile isSpaceGo).reverse.dropWhile isSpaceGo).reverse

/-- Model of strings.TrimSpace. -/
def goTrim (s : String) : String := String.mk (trimChars s.data)

/-- Split a character list at every character satisfying p; the result is
never empty (splitting the empty list yields one empty piece), matching
Go's strings.Split semantics for a one-character separator. -/
def chSplitBy (p : Char → Bool) : List Char → List (List Char)
  | [] => [[]]
  | c :: cs =>
    match chSplitBy p cs with
    | [] => [[]]
    | h :: t => if p c then [] :: h :: t else (c :: h) :: t

/-- Model of strings.Split with a one-character separator. -/
def goSplit (s : String) (sep : Char) : List String :=
  (chSplitBy (fun c => c = sep) s.data).map String.mk

/-- The lines of a commit-metadata text, as split by the Go loop
(strings.Split(content, newline)). -/
def linesOf (content : String) : List String := goSplit content '\n'

/-- Model of strings.HasPrefix s pfx. -/
def goHasPfx (s pfx : String) : Bool := pfx.data.isPrefixOf s.data

/-- Model of strings.Fields: maximal runs of non-whitespace characters. -/
def fieldsGo (s : String) : List String :=
  ((chSplitBy isSpaceGo s.data).filter (fun l => l ≠ [])).map String.mk

/-! ## base64.StdEncoding.DecodeString -/

/-- Value of one character of the standard base64 alphabet. -/
def b64Val (c : Char) : Option Nat :=
  if 'A' ≤ c ∧ c ≤ 'Z' then some (c.toNat - 65)
  else if 'a' ≤ c ∧ c ≤ 'z' then some (c.toNat - 97 + 26)
  else if '0' ≤ c ∧ c ≤ '9' then some (c.toNat - 48 + 52)
  else if c = '+' then some 62
  else if c = '/' then some 63
  else none

/-- Decode base64 text four characters at a time; padding characters are
legal only in the final quantum, as in Go's StdEncoding.  A list whose
length is not a multiple of four is corrupt. -/
def b64Quads : List Char → Option (List Nat)
  | [] => some []
  | c1 :: c2 :: c3 :: c4 :: rest =>
    match b64Val c1, b64Val c2 with
    | some v1, some v2 =>
      if c3 = '=' then
        if c4 = '=' ∧ rest = [] then some [v1 * 4 + v2 / 16] else none
      else
        match b64Val c3 with
        | some v3 =>
          if c4 = '=' then
            if rest = [] then some [v1 * 4 + v2 / 16, (v2 % 16) * 16 + v3 / 4] else none
          else
            match b64Val c4 with
            | some v4 =>
              match b64Quads rest with
              | some bs => some ([v1 * 4 + v2 / 16, (v2 % 16) * 16 + v3 / 4, (v3 % 4) * 64 + v4] ++ bs)
              | none => none
            | none => none
        | none => none
    | _, _ => none
  | _ => none

/-- Model of base64.StdEncoding.DecodeString: Go's decoder ignores carriage
returns and newlines and rejects any other corrupt input. -/
def b64Decode (s : String) : Option (List Nat) :=
  b64Quads (s.data.filter (fun c => if c = '\n' then false else if c = '\r' then false else true))

/-- Model of Go's copy(dst, src) into a zero-initialized fixed-size byte
array of length n: the first n source bytes are copied, the remaining
destination bytes stay zero. -/
def copyBytes (n : Nat) (xs : List Nat) : List Nat :=
  xs.take n ++ List.replicate (n - xs.length) 0

/-! ## The commit signature verifier (verifySignature, lines 206-268) -/

/-- The Ed25519 verification primitive (github.com/agl/ed25519) is an
external pure collaborator: it is modelled as an oracle taking the
32-byte public key buffer, the message (the tree hash string) and the
64-byte signature buffer. -/
abbrev EdVerify := List Nat → String → List Nat → Bool

/-- Result of an embedded Go computation: a runtime panic, an error value,
or a normal result. -/
inductive PResult (α : Type) where
  | panic : PResult α
  | err : String → PResult α
  | ok : α → PResult α
deriving DecidableEq

/-- Parser state of the line loop of verifySignature: the tree, key and
sign local variables. -/
structure PState where
  tree : String
  key : String
  sign : String
deriving DecidableEq

/-- The colon-separated parts of the value of a satori-sign line
(strings.Split(strings.TrimSpace(l[12:]), colon)). -/
def signParts (l : String) : List String :=
  (chSplitBy (fun c => c = ':') (trimChars (l.data.drop 12))).map String.mk

/-- The keyid of a satori-sign line: the first colon-separated part. -/
def signKeyid (l : String) : String := (signParts l).headD ""

/-- The trusted-key lookup of the inner loop: the first entry of validKeys
of which keyid is a textual prefix. -/
def matchKey (validKeys : List String) (keyid : String) : Option String :=
  validKeys.find? (fun k => goHasPfx k keyid)

/-- One iteration of the line loop of verifySignature.  A tree line
overwrites the tree variable; a satori-sign line looks the keyid up in
validKeys (keeping the previous key when nothing matches, taking the first
whitespace-separated field of the matching entry otherwise) and then
overwrites the sign variable with the second colon-separated part.  The
two Go panics are modelled as none: indexing Fields(k)[0] of an entry with
no fields, and indexing a[1] of a value with no colon. -/
def parseLine (validKeys : List String) (st : PState) (l : String) : Option PState :=
  if goHasPfx l "tree " then
    some { st with tree := String.mk (trimChars (l.data.drop 5)) }
  else if goHasPfx l "satori-sign " then
    let a := signParts l
    let keyid := a.headD ""
    let keyStep : Option String :=
      match matchKey validKeys keyid with
      | some k => (fieldsGo k).head?
      | none => some st.key
    match keyStep with
    | none => none
    | some key =>
      match a with
      | _ :: x :: _ => some { st with key := key, sign := x }
      | _ => none
  else
    some st

/-- The line loop of verifySignature run from a given parser state. -/
def parseLinesFrom (validKeys : List String) (st : PState) (ls : List String) : Option PState :=
  ls.foldlM (parseLine validKeys) st

/-- The whole line loop of verifySignature over a commit-metadata text,
starting from empty tree, key and sign. -/
def parseContent (validKeys : List String) (content : String) : Option PState :=
  parseLinesFrom validKeys ⟨"", "", ""⟩ (linesOf content)

/-- Body of verifySignature after the git cat-file call (lines 219-267):
run the line loop, test the three emptiness conditions in order, decode
key and signature from base64 into zero-initialized fixed-size buffers,
and invoke Ed25519 verification on the tree hash string. -/
def verifyContent (ed : EdVerify) (content : String) (validKeys : List String) : PResult Unit :=
  match parseContent validKeys content with
  | none => .panic
  | some st =>
    if st.tree = "" then .err "Can't find tree hash"
    else if st.sign = "" then .err "Signature not found"
    else if st.key = "" then .err "Signing key untrusted"
    else
      match b64Decode st.key with
      | none => .err "illegal base64 data"
      | some kb =>
        match b64Decode st.sign with
        | none => .err "illegal base64 data"
        | some sb =>
          if ed (copyBytes 32 kb) st.tree (copyBytes 64 sb) then .ok ()
          else .err "Signature invalid"

/-! ## The update orchestrator (UpdatePlugin and its helpers) -/

/-- Externally observable effects of an update attempt, in execution
order: filesystem and git operations, the guard-state writes, and the
fire-and-forget metrics reports (reportFailure). -/
inductive Effect where
  | mkdirAll : Effect
  | gitInit : Effect
  | remoteAdd : Effect
  | removeAll : Effect
  | setInflight : Bool → Effect
  | setLast : Int → Effect
  | fetch : Effect
  | catFile : String → Effect
  | revList : String → Effect
  | readKeysFile : Effect
  | checkout : String → Effect
  | report : String → Effect
deriving DecidableEq

/-- The process-wide guard variables updateInflight and lastPluginUpdate. -/
structure GuardState where
  updateInflight : Bool
  lastPluginUpdate : Int
deriving DecidableEq

/-- The plugin section of the agent configuration consumed by
UpdatePlugin. -/
structure PluginCfg where
  enabled : Bool
  debug : Bool
  checkoutPath : String
  git : String
  signingKeys : List String
  altSigningKeysFile : String

/-- Oracle environment for one update attempt: the wall clock, the
filesystem facts consulted, and the outcome of each external git or file
operation, plus the Ed25519 primitive. -/
structure Env where
  now : Int
  parentExists : Bool
  repoExists : Bool
  gitInit : Except String Unit
  remoteAdd : Except String Unit
  fetch : Except String Unit
  catFile : String → Except String String
  keyFileExists : Bool
  revList : Except String String
  keysFileRead : Except String String
  checkout : Except String Unit
  ed : EdVerify

/-- Embedding of ensureGitRepo (lines 157-184): when the repository
directory is missing, git init then git remote add, deleting the
half-initialized directory when remote registration fails. -/
def ensureGitRepo (env : Env) : Except String Unit × List Effect :=
  if env.repoExists then (.ok (), [])
  else
    match env.gitInit with
    | .error e => (.error ("Can't init plugin repo: " ++ e), [.gitInit])
    | .ok _ =>
      match env.remoteAdd with
      | .error e => (.error ("Can't set repo remote, aborting: " ++ e), [.gitInit, .remoteAdd, .removeAll])
      | .ok _ => (.ok (), [.gitInit, .remoteAdd])

/-- Embedding of updateByFetch (lines 186-204): set the in-flight flag,
stamp the last-attempt time, run git fetch, and clear the in-flight flag
on function exit through the deferred closure (on the success and the
failure path alike). -/
def updateByFetch (env : Env) (st : GuardState) : Except String Unit × GuardState × List Effect :=
  let stOut : GuardState := { st with updateInflight := false, lastPluginUpdate := env.now }
  match env.fetch with
  | .error e =>
    (.error ("Update plugins by fetch error: " ++ e), stOut,
      [.setInflight true, .setLast env.now, .fetch, .setInflight false])
  | .ok _ =>
    (.ok (), stOut, [.setInflight true, .setLast env.now, .fetch, .setInflight false])

/-- Embedding of verifySignature (lines 206-268): read the commit object
of head with git cat-file, then run the pure verifier body over its
text. -/
def verifySignature (env : Env) (head : String) (validKeys : List String) :
    PResult Unit × List Effect :=
  match env.catFile head with
  | .error e => (.err ("Can't get content of desired commit: " ++ e), [.catFile head])
  | .ok content => (verifyContent env.ed content validKeys, [.catFile head])

/-- The keys-file parse of getAltSigningKeys (lines 296-303): trim each
line, dropping blank lines and comment lines starting with a hash mark. -/
def parseKeysFile (content : String) : List String :=
  ((linesOf content).map goTrim).filter (fun l => !(goHasPfx l "#" || l = ""))

/-- Embedding of getAltSigningKeys (lines 270-306): require the keys file
to exist, find the most recent revision touching it with git rev-list,
verify that revision's signature against the caller's keys, and only then
read and parse the keys file. -/
def getAltSigningKeys (env : Env) (head : String) (keyFile : String)
    (validKeys : List String) : PResult (List String) × List Effect :=
  if !env.keyFileExists then (.err ("keyFile " ++ keyFile ++ " does not exist"), [])
  else
    match env.revList with
    | .error e => (.err ("Can't get most recent commit hash of key file: " ++ e), [.revList head])
    | .ok out =>
      let mostRecentHash := goTrim out
      match verifySignature env mostRecentHash validKeys with
      | (.panic, eff) => (.panic, .revList head :: eff)
      | (.err e, eff) => (.err e, .revList head :: eff)
      | (.ok _, eff) =>
        match env.keysFileRead with
        | .error e => (.err e, .revList head :: (eff ++ [.readKeysFile]))
        | .ok content => (.ok (parseKeysFile content), .revList head :: (eff ++ [.readKeysFile]))

/-- The trusted-key list used by the Verifying stage of UpdatePlugin
(lines 123-138): primary keys alone when no alternate-keys file is
configured or alternate resolution fails (after an alt-key-fail report);
otherwise the alternate keys with the primary keys appended after them
(keys = append(altKeys, cfg.SigningKeys...)).  A none result models a
panic escaping getAltSigningKeys. -/
def resolveKeys (cfg : PluginCfg) (env : Env) (ver : String) :
    Option (List String) × List Effect :=
  if cfg.altSigningKeysFile = "" then (some cfg.signingKeys, [])
  else
    match getAltSigningKeys env ver cfg.altSigningKeysFile cfg.signingKeys with
    | (.panic, eff) => (none, eff)
    | (.err _, eff) => (some cfg.signingKeys, eff ++ [.report "alt-key-fail"])
    | (.ok alt, eff) => (some (alt ++ cfg.signingKeys), eff)

/-- Signature verification of the target revision with an already
resolved key list (lines 139-143), reporting a verification failure to
the metrics sink; eff3 carries the effects of the preceding key
resolution. -/
def verifyWithKeys (env : Env) (ver1 : String) (keys : List String) (eff3 : List Effect) :
    PResult Unit × List Effect :=
  match verifySignature env ver1 keys with
  | (.panic, eff4) => (.panic, eff3 ++ eff4)
  | (.err e, eff4) => (.err e, eff3 ++ (eff4 ++ [.report "signature-fail"]))
  | (.ok _, eff4) => (.ok (), eff3 ++ eff4)

/-- The verification stage of UpdatePlugin (lines 123-146): skipped when
no signing keys are configured, otherwise alternate-key resolution
followed by signature verification of the target revision with the
resolved key list. -/
def verifyStage (cfg : PluginCfg) (env : Env) (ver1 : String) : PResult Unit × List Effect :=
  if cfg.signingKeys = [] then (.ok (), [])
  else
    match resolveKeys cfg env ver1 with
    | (none, eff3) => (.panic, eff3)
    | (some keys, eff3) => verifyWithKeys env ver1 keys eff3

/-- The tail of UpdatePlugin after the verification stage (lines 139-154):
a failing or panicking verification aborts the attempt, otherwise the
target revision is checked out, with a git-fail report on checkout
failure. -/
def afterVerify (env : Env) (st1 : GuardState) (base : List Effect) (ver1 : String) :
    PResult Unit × List Effect → PResult Unit × GuardState × List Effect
  | (.panic, eff3) => (.panic, st1, base ++ eff3)
  | (.err e, eff3) => (.err e, st1, base ++ eff3)
  | (.ok _, eff3) =>
    match env.checkout with
    | .error e => (.err e, st1, base ++ eff3 ++ [.checkout ver1, .report "git-fail"])
    | .ok _ => (.ok (), st1, base ++ eff3 ++ [.checkout ver1])

/-- Embedding of UpdatePlugin (lines 75-155): guard checks, directory
creation, default target revision, ensure-repo, fetch, optional signature
verification with alternate-key resolution, and checkout, reporting each
failing stage to the metrics sink. -/
def updatePlugin (cfg : PluginCfg) (env : Env) (st : GuardState) (ver : String) :
    PResult Unit × GuardState × List Effect :=
  if !cfg.enabled then (.err "plugin not enabled", st, [])
  else if st.updateInflight then (.err "Previous update inflight, do nothing", st, [])
  else if env.now - st.lastPluginUpdate < 300 then (.err "Previous update too recent, do nothing", st, [])
  else
    let eff0 : List Effect := if env.parentExists then [] else [.mkdirAll]
    let ver1 := if ver = "" then "origin/master" else ver
    match ensureGitRepo env with
    | (.error e, eff1) => (.err e, st, eff0 ++ eff1 ++ [.report "git-fail"])
    | (.ok _, eff1) =>
      match updateByFetch env st with
      | (.error e, st1, eff2) => (.err e, st1, eff0 ++ eff1 ++ eff2 ++ [.report "git-fail"])
      | (.ok _, st1, eff2) =>
        afterVerify env st1 (eff0 ++ eff1 ++ eff2) ver1 (verifyStage cfg env ver1)

/-- Value of the in-flight flag at the moment the first occurrence of the
target effect is reached, obtained by replaying the setInflight writes of
a trace from an initial flag value. -/
def inflightAt : List Effect → Effect → Bool → Bool
  | [], _, b => b
  | x :: xs, tgt, b =>
    if x = tgt then b
    else
      match x with
      | Effect.setInflight v => inflightAt xs tgt v
      | _ => inflightAt xs tgt b

/-! ## The self-update executor (TrySelfUpdate, lines 344-418) -/

/-- Externally observable effects of TrySelfUpdate: the mutating
filesystem operations of the swap script and the process-image
replacement.  File reads for hashing are not mutations and are carried by
the environment instead. -/
inductive SEffect where
  | remove : String → SEffect
  | rename : String → String → SEffect
  | copyFile : String → String → SEffect
  | exec : String → SEffect
deriving DecidableEq

/-- Outcome of TrySelfUpdate: a returned error, a normal nil return, or a
successful process-image replacement (from which the Go function never
returns). -/
inductive SelfOutcome where
  | ok : SelfOutcome
  | err : String → SelfOutcome
  | replaced : SelfOutcome
deriving DecidableEq

/-- Oracle environment for one TrySelfUpdate call. -/
structure SelfEnv where
  selfUpdate : Bool
  debug : Bool
  checkoutPath : String
  osext : Except String String
  candidateExists : Bool
  hashFile : String → Except String (List Nat)
  newStillExists : Bool
  backupExists : Bool
  mvOk : Bool
  cpOk : Bool
  execOk : Bool

/-- Lowercase hexadecimal digit. -/
def hexDigit (n : Nat) : Char :=
  if n < 10 then Char.ofNat (48 + n) else Char.ofNat (87 + n)

/-- Model of hex.EncodeToString over a byte list. -/
def hexEncode (bs : List Nat) : String :=
  String.mk (bs.foldr (fun b acc => hexDigit (b / 16 % 16) :: hexDigit (b % 16) :: acc) [])

/-- Embedding of the generated swap shell script (lines 397-407) under set
-e semantics: exit 1 when the candidate is gone, remove a pre-existing
backup, rename the current binary to the backup path, copy the candidate
over the original path.  The mv and cp steps may fail through the
environment, stopping the script at that point. -/
def runSwapScript (env : SelfEnv) (selfP backupP newP : String) :
    Except String Unit × List SEffect :=
  if !env.newStillExists then (.error "exit status 1", [])
  else
    let eff0 : List SEffect := if env.backupExists then [.remove backupP] else []
    if !env.mvOk then (.error "exit status 1", eff0)
    else if !env.cpOk then (.error "exit status 1", eff0 ++ [.rename selfP backupP])
    else (.ok (), eff0 ++ [.rename selfP backupP, .copyFile newP selfP])

/-- Embedding of TrySelfUpdate (lines 344-418): return nil when disabled
or when the candidate binary is absent; hash the running binary and the
candidate in full (path.Join of the checkout path and the fixed
satori-agent name is modelled as slash concatenation); return nil when
the digests are equal; otherwise run the swap script with the backup path
derived from the running binary's digest, and finally replace the process
image, returning the cannot-exec error when the replacement call itself
fails. -/
def trySelfUpdate (env : SelfEnv) : SelfOutcome × List SEffect :=
  if !env.selfUpdate then (.ok, [])
  else
    match env.osext with
    | .error e => (.err e, [])
    | .ok selfPath =>
      let newPath := env.checkoutPath ++ "/satori-agent"
      if !env.candidateExists then (.ok, [])
      else
        match env.hashFile selfPath with
        | .error e => (.err e, [])
        | .ok selfHash =>
          match env.hashFile newPath with
          | .error e => (.err e, [])
          | .ok newHash =>
            if selfHash = newHash then (.ok, [])
            else
              let backupP := selfPath ++ "." ++ hexEncode selfHash
              match runSwapScript env selfPath backupP newPath with
              | (.error e, eff) => (.err e, eff)
              | (.ok _, eff) =>
                if env.execOk then (.replaced, eff ++ [.exec selfPath])
                else (.err "Can't do exec!", eff ++ [.exec selfPath])

/-! ## Concrete fixtures used by counterexamples and witnesses -/

/-- A 32-byte buffer holding the three decoded bytes of the base64 text
AAAA followed by zeros. -/
def padKeyA : List Nat := [0, 0, 0] ++ List.replicate 29 0

/-- A 32-byte buffer holding the three decoded bytes of the base64 text
AAAB followed by zeros. -/
def padKeyB : List Nat := [0, 0, 1] ++ List.replicate 29 0

/-- Configuration with one primary trusted key AAAB and an alternate-keys
file configured. -/
def cfgC1 : PluginCfg :=
  { enabled := true, debug := false, checkoutPath := "cp", git := "g"
  , signingKeys := ["AAAB"], altSigningKeysFile := "keys" }

/-- Environment in which the alternate-keys file's introducing revision r1
is signed with the primary key AAAB, the target revision is signed with a
keyid AA that prefix-matches the alternate key AAAA and the primary key
AAAB alike, and the Ed25519 oracle accepts exactly the introducing
revision under the primary key and the target tree under the alternate
key. -/
def envC1 : Env :=
  { now := 1000, parentExists := true, repoExists := true
  , gitInit := .ok (), remoteAdd := .ok (), fetch := .ok ()
  , catFile := fun r =>
      if r = "r1" then .ok "tree T1\nsatori-sign AAAB:AAAA"
      else .ok "tree T\nsatori-sign AA:AAAA"
  , keyFileExists := true, revList := .ok "r1\n", keysFileRead := .ok "AAAA\n"
  , checkout := .ok ()
  , ed := fun vk msg _ =>
      (msg = "T1" && vk = padKeyB) || (msg = "T" && vk = padKeyA) }

/-- Guard state of an idle process whose last update lies far in the
past. -/
def stIdle : GuardState := { updateInflight := false, lastPluginUpdate := 0 }

/-- Configuration with one primary trusted key and no alternate-keys
file. -/
def cfgC3 : PluginCfg :=
  { enabled := true, debug := false, checkoutPath := "cp", git := "g"
  , signingKeys := ["AAAA"], altSigningKeysFile := "" }

/-- Environment for a fully successful update attempt with a target
revision signed by the primary key and an always-accepting Ed25519
oracle. -/
def envC3 : Env :=
  { now := 1000, parentExists := true, repoExists := true
  , gitInit := .ok (), remoteAdd := .ok (), fetch := .ok ()
  , catFile := fun _ => .ok "tree T\nsatori-sign AA:AAAA"
  , keyFileExists := true, revList := .ok "", keysFileRead := .ok ""
  , checkout := .ok ()
  , ed := fun _ _ _ => true }

/-- Environment for an attempt whose target revision carries a signature
with the untrusted keyid ZZ matching no configured key. -/
def envC6 : Env :=
  { now := 1000, parentExists := true, repoExists := true
  , gitInit := .ok (), remoteAdd := .ok (), fetch := .ok ()
  , catFile := fun _ => .ok "tree T\nsatori-sign ZZ:AAAA"
  , keyFileExists := true, revList := .ok "", keysFileRead := .ok ""
  , checkout := .ok ()
  , ed := fun _ _ _ => true }

/-- Environment whose alternate-keys file has an introducing revision r1
that carries no signature record at all, so its primary-key verification
fails. -/
def envC4 : Env :=
  { now := 1000, parentExists := true, repoExists := true
  , gitInit := .ok (), remoteAdd := .ok (), fetch := .ok ()
  , catFile := fun _ => .ok "tree T"
  , keyFileExists := true, revList := .ok "r1\n", keysFileRead := .ok "AAAA\n"
  , checkout := .ok ()
  , ed := fun _ _ _ => true }

/-- Self-update environment in which the candidate binary is absent. -/
def envC9a : SelfEnv :=
  { selfUpdate := true, debug := false, checkoutPath := "cp"
  , osext := .ok "/bin/agent", candidateExists := false
  , hashFile := fun _ => .ok [], newStillExists := true, backupExists := false
  , mvOk := true, cpOk := true, execOk := true }

/-- Self-update environment in which the candidate binary is byte
identical to the running binary. -/
def envC9b : SelfEnv :=
  { envC9a with candidateExists := true, hashFile := fun _ => .ok [1] }

/-- Self-update environment in which the candidate binary's digest differs
from the running binary's. -/
def envC9c : SelfEnv :=
  { envC9a with
    candidateExists := true,
    hashFile := fun q => if q = "/bin/agent" then .ok [1] else .ok [2] }

/-! ## Claims -/

/-- Claim C2 (code_bug evaluation): on a commit-metadata text whose
satori-sign line value contains no colon separator, verifySignature does
not return a failure result but crashes — the embedded body reaches the
out-of-range index a[1] of the one-element colon split and panics, for
any Ed25519 oracle and in particular the always-true one. -/
theorem c2_panic_on_colonless_sign_line :
    verifyContent (fun _ _ _ => true) "tree abc\nsatori-sign AAAA" ["AAAA"] = .panic := by
  decide

/-- Claim C7 (counterexample): a commit-metadata text with no tree-hash
line but with a colon-free satori-sign line makes verifySignature panic
instead of failing with the no-tree-hash error, so the missing-tree-hash
check does not take precedence on every input. -/
theorem c7_counterexample :
    verifyContent (fun _ _ _ => true) "satori-sign AAAA" ["AAAA"] = .panic
    ∧ verifyContent (fun _ _ _ => true) "satori-sign AAAA" ["AAAA"] ≠ .err "Can't find tree hash" := by
  decide

/-- Claim C5 (counterexample): a commit-metadata text with two satori-sign
lines is not treated as unsigned — here the second record is selected and
verified (the first record's signature value is not even valid base64, so
selecting it would yield a decode error), and verification succeeds under
an accepting Ed25519 oracle. -/
theorem c5_counterexample :
    verifyContent (fun _ _ _ => true)
      "tree T\nsatori-sign AA:!!\nsatori-sign AA:AAAA" ["AAAA"] = .ok () := by
  decide

/-- Claim C1 (counterexample): after successful alternate-key resolution
the combined trusted-key list of the Verifying stage is the alternate key
AAAA followed by the primary key AAAB; the keyid AA prefix-matches both,
and the first match — hence the selected key — is the alternate key, not
the primary one; the end-to-end attempt succeeds under an Ed25519 oracle
that accepts the target tree only under the alternate key. -/
theorem c1_counterexample :
    (resolveKeys cfgC1 envC1 "origin/master").1 = some ["AAAA", "AAAB"]
    ∧ goHasPfx "AAAA" "AA" = true
    ∧ goHasPfx "AAAB" "AA" = true
    ∧ matchKey ["AAAA", "AAAB"] "AA" = some "AAAA"
    ∧ matchKey ["AAAA", "AAAB"] "AA" ≠ some "AAAB"
    ∧ (updatePlugin cfgC1 envC1 stIdle "").1 = .ok () := by
  decide

/-- Claim C3 (counterexample): in a fully successful concrete update
attempt the effect trace shows the in-flight flag being cleared when the
fetch stage returns — before the verification read of the commit object
and before the checkout — so the flag is not true during the
trust-resolution, verification and checkout stages. -/
theorem c3_counterexample :
    updatePlugin cfgC3 envC3 stIdle "" =
      (.ok (), { updateInflight := false, lastPluginUpdate := 1000 },
        [.setInflight true, .setLast 1000, .fetch, .setInflight false,
         .catFile "origin/master", .checkout "origin/master"])
    ∧ inflightAt
        [.setInflight true, .setLast 1000, .fetch, .setInflight false,
         .catFile "origin/master", .checkout "origin/master"]
        (.catFile "origin/master") false = false
    ∧ inflightAt
        [.setInflight true, .setLast 1000, .fetch, .setInflight false,
         .catFile "origin/master", .checkout "origin/master"]
        (.checkout "origin/master") false = false := by
  decide

/-- Claim C8: a call to UpdatePlugin made less than 300 seconds after the
previous attempt's start timestamp is rejected with an error and with no
side effects at all — the guard state is returned unchanged and the
effect trace is empty, so no repository operation runs and no metrics
report is sent. -/
theorem c8_theorem (cfg : PluginCfg) (env : Env) (st : GuardState) (ver : String)
    (h : env.now - st.lastPluginUpdate < 300) :
    ∃ m, updatePlugin cfg env st ver = (.err m, st, []) := by
  unfold updatePlugin
  by_cases h1 : (!cfg.enabled) = true
  · exact ⟨"plugin not enabled", by simp [h1]⟩
  · by_cases h2 : st.updateInflight = true
    · exact ⟨"Previous update inflight, do nothing", by simp [h1, h2]⟩
    · exact ⟨"Previous update too recent, do nothing", by simp [h1, h2, h]⟩

/-- Witness for claim C8 at a concrete rejected call: the previous attempt
started 100 seconds ago. -/
theorem c8_witness :
    ∃ m, updatePlugin cfgC3 envC3 { updateInflight := false, lastPluginUpdate := 900 } "" =
      (.err m, { updateInflight := false, lastPluginUpdate := 900 }, []) :=
  c8_theorem cfgC3 envC3 { updateInflight := false, lastPluginUpdate := 900 } "" (by decide)

/-- Claim C4: getAltSigningKeys never returns a key list when the keys
file's most recent introducing revision (the trimmed git rev-list output)
fails signature verification against the caller's keys — in every such
case the verification error itself is returned and no alternate keys
are. -/
theorem c4_theorem (env : Env) (head keyFile : String) (validKeys : List String)
    (out e : String)
    (h1 : env.keyFileExists = true) (h2 : env.revList = .ok out)
    (h3 : (verifySignature env (goTrim out) validKeys).1 = .err e) :
    (getAltSigningKeys env head keyFile validKeys).1 = .err e := by
  unfold getAltSigningKeys
  rcases hv : verifySignature env (goTrim out) validKeys with ⟨rv, eff⟩
  rw [hv] at h3
  simp only at h3
  subst h3
  simp [h1, h2, hv]

/-- Witness for claim C4: the introducing revision r1 carries no signature
record, so primary-key verification fails with the no-signature error and
getAltSigningKeys forwards that error. -/
theorem c4_witness :
    (getAltSigningKeys envC4 "origin/master" "keys" ["AAAA"]).1 = .err "Signature not found" :=
  c4_theorem envC4 "origin/master" "keys" ["AAAA"] "r1\n" "Signature not found"
    (by decide) (by decide) (by decide)

/-- Claim C10: when the trusted-key entry and the signature decode
successfully from base64 — to byte lists of any length — verifySignature
does not reject them as an encoding error: it copies the decoded bytes
into zero-initialized fixed-size buffers (32 bytes for the key, 64 for
the signature), zero-padding short decodes and truncating long ones, and
proceeds to Ed25519 verification on those padded values. -/
theorem c10_theorem (ed : EdVerify) (keys : List String) (content : String) (st : PState)
    (kb sb : List Nat)
    (hp : parseContent keys content = some st)
    (ht : st.tree ≠ "") (hs : st.sign ≠ "") (hk : st.key ≠ "")
    (hkd : b64Decode st.key = some kb) (hsd : b64Decode st.sign = some sb) :
    verifyContent ed content keys =
      (if ed (copyBytes 32 kb) st.tree (copyBytes 64 sb) then .ok () else .err "Signature invalid")
    ∧ (kb.length < 32 → copyBytes 32 kb = kb ++ List.replicate (32 - kb.length) 0)
    ∧ (32 ≤ kb.length → copyBytes 32 kb = kb.take 32)
    ∧ (sb.length < 64 → copyBytes 64 sb = sb ++ List.replicate (64 - sb.length) 0) := by
  refine ⟨?_, ?_, ?_, ?_⟩
  · unfold verifyContent
    rw [hp]
    simp [ht, hs, hk, hkd, hsd]
  · intro h
    unfold copyBytes
    rw [List.take_of_length_le (Nat.le_of_lt h)]
  · intro h
    unfold copyBytes
    simp [Nat.sub_eq_zero_of_le h]
  · intro h
    unfold copyBytes
    rw [List.take_of_length_le (Nat.le_of_lt h)]

/-- Witness for claim C10: the key AAAA decodes to three bytes, fewer than
32; it is not rejected, the buffers are zero-padded, and under an
accepting Ed25519 oracle verification succeeds on them. -/
theorem c10_witness :
    verifyContent (fun _ _ _ => true) "tree T\nsatori-sign AAAA:AAAA" ["AAAA"] =
      (if (fun _ _ _ => true : EdVerify) (copyBytes 32 [0, 0, 0]) "T" (copyBytes 64 [0, 0, 0])
        then .ok () else .err "Signature invalid")
    ∧ copyBytes 32 [0, 0, 0] = [0, 0, 0] ++ List.replicate 29 0 := by
  have h := c10_theorem (fun _ _ _ => true) ["AAAA"] "tree T\nsatori-sign AAAA:AAAA"
    ⟨"T", "AAAA", "AAAA"⟩ [0, 0, 0] [0, 0, 0]
    (by decide) (by decide) (by decide) (by decide) (by decide) (by decide)
  exact ⟨h.1, by decide⟩

/-- A non-tree line leaves the tree variable of the verifier's line loop
unchanged. -/
theorem parseLine_tree_eq (validKeys : List String) (st st1 : PState) (l : String)
    (hl : goHasPfx l "tree " = false) (h : parseLine validKeys st l = some st1) :
    st1.tree = st.tree := by
  unfold parseLine at h
  simp only [hl, Bool.false_eq_true, if_false] at h
  by_cases hs : goHasPfx l "satori-sign " = true
  · simp only [hs, if_true] at h
    split at h
    · exact absurd h (by simp)
    · split at h
      · cases h
        rfl
      · exact absurd h (by simp)
  · simp only [hs, if_false] at h
    cases h
    rfl

/-- Running the verifier's line loop over lines none of which carries the
tree-hash marker leaves the tree variable at its initial value. -/
theorem parseLinesFrom_tree_const (validKeys : List String) :
    ∀ (ls : List String) (st st1 : PState),
      (∀ l ∈ ls, goHasPfx l "tree " = false) →
      parseLinesFrom validKeys st ls = some st1 → st1.tree = st.tree := by
  intro ls
  induction ls with
  | nil =>
    intro st st1 _ h
    simp [parseLinesFrom, List.foldlM] at h
    rw [← h]
  | cons a ls ih =>
    intro st st1 hno h
    simp only [parseLinesFrom, List.foldlM] at h
    rcases hpa : parseLine validKeys st a with _ | st2
    · rw [hpa] at h
      simp at h
    · rw [hpa] at h
      simp only [Option.bind_eq_bind, Option.some_bind] at h
      have h2 : parseLinesFrom validKeys st2 ls = some st1 := h
      have e1 := parseLine_tree_eq validKeys st st2 a (hno a (by simp)) hpa
      have e2 := ih st2 st1 (fun l hl => hno l (by simp [hl])) h2
      rw [e2, e1]

/-- Claim C7 (amended): for every commit-metadata text that contains no
tree-hash line and on which the line loop completes without the colon
panic, verifySignature fails with the no-tree-hash error regardless of
whether signature records are present — the missing-tree-hash check takes
precedence over the missing-signature and untrusted-key checks. -/
theorem c7_amended (ed : EdVerify) (content : String) (keys : List String)
    (hnotree : ((linesOf content).all (fun l => !goHasPfx l "tree ")) = true)
    (hnopanic : parseContent keys content ≠ none) :
    verifyContent ed content keys = .err "Can't find tree hash" := by
  rcases h : parseContent keys content with _ | st
  · exact absurd h hnopanic
  · have hall : ∀ l ∈ linesOf content, goHasPfx l "tree " = false := by
      intro l hl
      have := List.all_eq_true.mp hnotree l hl
      simpa using this
    have htree : st.tree = "" :=
      parseLinesFrom_tree_const keys (linesOf content) ⟨"", "", ""⟩ st hall h
    unfold verifyContent
    rw [h]
    simp [htree]

/-- Witness for claim C7 (amended) at a text carrying a well-formed
signature record but no tree line. -/
theorem c7_witness :
    verifyContent (fun _ _ _ => true) "satori-sign AA:BB" ["AAAA"] = .err "Can't find tree hash" :=
  c7_amended (fun _ _ _ => true) "satori-sign AA:BB" ["AAAA"] (by decide) (by decide)

/-- A monadic left fold over the Option monad splits along a list
append. -/
theorem foldlM_append_option {σ α : Type} (f : σ → α → Option σ) (init : σ)
    (l1 l2 : List α) :
    List.foldlM f init (l1 ++ l2) =
      (List.foldlM f init l1).bind (fun s => List.foldlM f s l2) := by
  induction l1 generalizing init with
  | nil => simp [List.foldlM]
  | cons a l ih =>
    simp only [List.cons_append, List.foldlM, Option.bind_eq_bind]
    cases f init a with
    | none => simp
    | some s => simp [ih]

/-- Claim C5 (amended): duplicate satori-sign records are not treated as
absence of a valid signature — the line loop is a left fold that
processes every record in order, and a later satori-sign line whose keyid
matches a trusted key yields a parser state independent of the key and
sign values accumulated from earlier records, so the record processed
last determines the key and signature that are verified. -/
theorem c5_amended (keys : List String) (ls : List String) (l : String) (st : PState) :
    parseLinesFrom keys st (ls ++ [l]) =
      (parseLinesFrom keys st ls).bind (fun st1 => parseLine keys st1 l)
    ∧ (∀ st1 st2 : PState, st1.tree = st2.tree →
        goHasPfx l "tree " = false →
        goHasPfx l "satori-sign " = true →
        (matchKey keys (signKeyid l)).isSome = true →
        parseLine keys st1 l = parseLine keys st2 l) := by
  constructor
  · unfold parseLinesFrom
    rw [foldlM_append_option]
    congr 1
    funext s
    simp [List.foldlM]
  · intro st1 st2 htree hnt hsp hsome
    obtain ⟨k, hk⟩ := Option.isSome_iff_exists.mp hsome
    unfold signKeyid at hk
    unfold parseLine
    simp only [hnt, Bool.false_eq_true, if_false, hsp, if_true]
    rw [hk]
    cases hfk : (fieldsGo k).head? with
    | none => simp [hfk]
    | some key =>
      simp only [hfk]
      cases hsp2 : signParts l with
      | nil => simp
      | cons x rest =>
        cases rest with
        | nil => simp
        | cons y rest2 => simp [htree]

/-- Witness for claim C5 (amended) at a concrete trailing satori-sign
record whose keyid matches the trusted key AAAA. -/
theorem c5_witness :
    parseLinesFrom ["AAAA"] ⟨"T", "k0", "s0"⟩ (["x"] ++ ["satori-sign AA:BB"]) =
      (parseLinesFrom ["AAAA"] ⟨"T", "k0", "s0"⟩ ["x"]).bind
        (fun st1 => parseLine ["AAAA"] st1 "satori-sign AA:BB")
    ∧ parseLine ["AAAA"] ⟨"T", "ka", "sa"⟩ "satori-sign AA:BB" =
        parseLine ["AAAA"] ⟨"T", "kb", "sb"⟩ "satori-sign AA:BB" := by
  have h := c5_amended ["AAAA"] ["x"] "satori-sign AA:BB" ⟨"T", "k0", "s0"⟩
  exact ⟨h.1, h.2 ⟨"T", "ka", "sa"⟩ ⟨"T", "kb", "sb"⟩ rfl (by decide) (by decide) (by decide)⟩

/-- When some element of the first list satisfies the predicate, a find
over the concatenation answers from the first list. -/
theorem find?_append_left {α : Type} (p : α → Bool) (l1 l2 : List α)
    (h : ∃ a ∈ l1, p a = true) : ∃ a ∈ l1, List.find? p (l1 ++ l2) = some a := by
  induction l1 with
  | nil => simp at h
  | cons b l ih =>
    by_cases hb : p b = true
    · exact ⟨b, List.mem_cons_self b l, by simp [List.find?_cons_of_pos _ hb]⟩
    · obtain ⟨a, ha, hpa⟩ := h
      have hal : a ∈ l := by
        rcases List.mem_cons.mp ha with rfl | h2
        · exact absurd hpa hb
        · exact h2
      obtain ⟨a2, ha2, hf⟩ := ih ⟨a, hal, hpa⟩
      refine ⟨a2, List.mem_cons_of_mem _ ha2, ?_⟩
      rw [List.cons_append, List.find?_cons_of_neg _ (by simpa using hb)]
      exact hf

/-- Claim C1 (amended): in the Verifying stage, when alternate keys were
successfully resolved, the combined trusted-key list is the alternate
keys followed by the primary keys — alternate keys are prepended, not
appended — so for every signature whose keyid prefix-matches an alternate
key (in particular one that also prefix-matches a primary key), the first
match, and hence the selected key, is an alternate key, because alternate
keys are matched first in the iteration order. -/
theorem c1_amended (cfg : PluginCfg) (env : Env) (ver : String) (alt : List String)
    (eff : List Effect)
    (hfile : cfg.altSigningKeysFile ≠ "")
    (halt : getAltSigningKeys env ver cfg.altSigningKeysFile cfg.signingKeys = (.ok alt, eff)) :
    (resolveKeys cfg env ver).1 = some (alt ++ cfg.signingKeys)
    ∧ ∀ keyid : String, (∃ a ∈ alt, goHasPfx a keyid = true) →
        ∃ a ∈ alt, matchKey (alt ++ cfg.signingKeys) keyid = some a := by
  constructor
  · unfold resolveKeys
    rw [if_neg hfile, halt]
  · intro keyid hex
    exact find?_append_left (fun k => goHasPfx k keyid) alt cfg.signingKeys hex

/-- Witness for claim C1 (amended) at the concrete environment of the
counterexample: the resolved list is AAAA then AAAB, and the contested
keyid AA selects an alternate key. -/
theorem c1_amended_witness :
    (resolveKeys cfgC1 envC1 "origin/master").1 = some (["AAAA"] ++ cfgC1.signingKeys)
    ∧ ∃ a ∈ ["AAAA"], matchKey (["AAAA"] ++ cfgC1.signingKeys) "AA" = some a := by
  have h := c1_amended cfgC1 envC1 "origin/master" ["AAAA"]
    [.revList "origin/master", .catFile "r1", .readKeysFile] (by decide) (by decide)
  exact ⟨h.1, h.2 "AA" ⟨"AAAA", by decide, by decide⟩⟩

/-- The guard state returned by the tail of UpdatePlugin is exactly the
state handed to it by the fetch stage, whatever the verification stage
produced. -/
theorem afterVerify_state (env : Env) (st1 : GuardState) (base : List Effect) (v1 : String)
    (x : PResult Unit × List Effect) : (afterVerify env st1 base v1 x).2.1 = st1 := by
  rcases x with ⟨r, eff⟩
  cases r with
  | panic => rfl
  | err e => rfl
  | ok u => cases hc : env.checkout <;> simp [afterVerify, hc]

/-- Claim C3 (amended): the in-flight flag is set when fetching begins but
its scope-guaranteed release belongs to the fetch stage itself, not to
the whole attempt — updateByFetch returns with the flag already cleared
on its success and failure paths alike, so the flag is false during the
trust-resolution, verification and checkout stages; consequently every
UpdatePlugin call either leaves the guard state untouched (guard
rejection or pre-fetch failure) or ends with the in-flight flag false. -/
theorem c3_amended (cfg : PluginCfg) (env : Env) (st : GuardState) (ver : String) :
    ((updateByFetch env st).2.1).updateInflight = false
    ∧ ((updatePlugin cfg env st ver).2.1 = st
       ∨ ((updatePlugin cfg env st ver).2.1).updateInflight = false) := by
  have hfetch : ∀ st0 : GuardState, ((updateByFetch env st0).2.1).updateInflight = false := by
    intro st0
    unfold updateByFetch
    cases env.fetch <;> rfl
  refine ⟨hfetch st, ?_⟩
  unfold updatePlugin
  by_cases h1 : (!cfg.enabled) = true
  · simp [h1]
  · by_cases h2 : st.updateInflight = true
    · simp [h1, h2]
    · by_cases h3 : env.now - st.lastPluginUpdate < 300
      · simp [h1, h2, h3]
      · rw [if_neg (by simpa using h1), if_neg (by simpa using h2), if_neg h3]
        rcases her : ensureGitRepo env with ⟨r1, eff1⟩
        rcases huf : updateByFetch env st with ⟨r2, st1, eff2⟩
        have hst1 : st1.updateInflight = false := by
          have := hfetch st
          rw [huf] at this
          exact this
        cases r1 with
        | error e => left; rfl
        | ok u =>
          cases r2 with
          | error e => right; exact hst1
          | ok u2 =>
            right
            simp only [afterVerify_state]
            exact hst1

/-- The effects of ensureGitRepo never include a checkout. -/
theorem ensureGitRepo_no_checkout (env : Env) (r : String) :
    Effect.checkout r ∉ (ensureGitRepo env).2 := by
  unfold ensureGitRepo
  by_cases hre : env.repoExists = true
  · simp [hre]
  · cases hgi : env.gitInit <;> cases hra : env.remoteAdd <;> simp [hre, hgi, hra]

/-- The effects of verifySignature never include a checkout. -/
theorem verifySignature_no_checkout (env : Env) (hd : String) (ks : List String) (r : String) :
    Effect.checkout r ∉ (verifySignature env hd ks).2 := by
  unfold verifySignature
  cases hc : env.catFile hd <;> simp [hc]

/-- The effects of getAltSigningKeys never include a checkout. -/
theorem getAltSigningKeys_no_checkout (env : Env) (hd kf : String) (ks : List String)
    (r : String) : Effect.checkout r ∉ (getAltSigningKeys env hd kf ks).2 := by
  unfold getAltSigningKeys
  by_cases hkf : env.keyFileExists = true
  · cases hrv : env.revList with
    | error e => simp [hkf, hrv]
    | ok out =>
      rcases hv : verifySignature env (goTrim out) ks with ⟨rv, eff⟩
      have hne : Effect.checkout r ∉ eff := by
        have := verifySignature_no_checkout env (goTrim out) ks r
        rw [hv] at this
        exact this
      cases rv <;> cases hkr : env.keysFileRead <;> simp [hkf, hrv, hv, hkr, hne]
  · simp [hkf]

/-- The effects of resolveKeys never include a checkout. -/
theorem resolveKeys_no_checkout (cfg : PluginCfg) (env : Env) (v : String) (r : String) :
    Effect.checkout r ∉ (resolveKeys cfg env v).2 := by
  unfold resolveKeys
  by_cases hf : cfg.altSigningKeysFile = ""
  · simp [hf]
  · rcases hga : getAltSigningKeys env v cfg.altSigningKeysFile cfg.signingKeys with ⟨ro, eff⟩
    have hne := getAltSigningKeys_no_checkout env v cfg.altSigningKeysFile cfg.signingKeys r
    rw [hga] at hne
    cases ro <;> simp [hf, hne]

/-- Claim C6: when a non-empty trusted-key set is configured and signature
verification of the target revision fails, UpdatePlugin returns that
verification error and no checkout effect ever appears in the attempt's
trace — the working copy remains at its prior revision. -/
theorem c6_theorem (cfg : PluginCfg) (env : Env) (st : GuardState) (ver : String)
    (keys : List String) (eff3 : List Effect) (e : String)
    (h1 : cfg.enabled = true) (h2 : st.updateInflight = false)
    (h3 : ¬ env.now - st.lastPluginUpdate < 300)
    (h4 : (ensureGitRepo env).1 = .ok ()) (h5 : env.fetch = .ok ())
    (h6 : cfg.signingKeys ≠ [])
    (h7 : resolveKeys cfg env (if ver = "" then "origin/master" else ver) = (some keys, eff3))
    (h8 : (verifySignature env (if ver = "" then "origin/master" else ver) keys).1 = .err e) :
    (updatePlugin cfg env st ver).1 = .err e
    ∧ ∀ r, Effect.checkout r ∉ (updatePlugin cfg env st ver).2.2 := by
  unfold updatePlugin
  rw [if_neg (by simp [h1]), if_neg (by simp [h2]), if_neg h3]
  rcases her : ensureGitRepo env with ⟨r1, eff1⟩
  have hr1 : r1 = .ok () := by rw [her] at h4; exact h4
  subst hr1
  have heff1 : ∀ r, Effect.checkout r ∉ eff1 := by
    intro r
    have := ensureGitRepo_no_checkout env r
    rw [her] at this
    exact this
  have huf : updateByFetch env st =
      (.ok (), { st with updateInflight := false, lastPluginUpdate := env.now },
        [.setInflight true, .setLast env.now, .fetch, .setInflight false]) := by
    unfold updateByFetch
    rw [h5]
  rw [huf]
  have hvstage : verifyStage cfg env (if ver = "" then "origin/master" else ver) =
      (.err e, eff3 ++ ((verifySignature env (if ver = "" then "origin/master" else ver) keys).2
        ++ [.report "signature-fail"])) := by
    unfold verifyStage
    rw [if_neg h6, h7]
    show verifyWithKeys env (if ver = "" then "origin/master" else ver) keys eff3 = _
    unfold verifyWithKeys
    rcases hvs : verifySignature env (if ver = "" then "origin/master" else ver) keys
      with ⟨rv, eff4⟩
    rw [hvs] at h8
    simp only at h8
    subst h8
    rfl
  dsimp only
  rw [hvstage]
  have heff3 : ∀ r, Effect.checkout r ∉ eff3 := by
    intro r
    have := resolveKeys_no_checkout cfg env (if ver = "" then "origin/master" else ver) r
    rw [h7] at this
    exact this
  constructor
  · rfl
  · intro r
    have h4v := verifySignature_no_checkout env (if ver = "" then "origin/master" else ver) keys r
    by_cases hpe : env.parentExists = true <;>
      simp [afterVerify, hpe, heff1 r, heff3 r, h4v]

/-- Witness for claim C6: the target revision carries a signature with the
untrusted keyid ZZ, verification fails with the untrusted-key error, the
call returns it, and no checkout effect occurs. -/
theorem c6_witness :
    (updatePlugin cfgC3 envC6 stIdle "").1 = .err "Signing key untrusted"
    ∧ Effect.checkout "origin/master" ∉ (updatePlugin cfgC3 envC6 stIdle "").2.2 := by
  have h := c6_theorem cfgC3 envC6 stIdle "" ["AAAA"] [] "Signing key untrusted"
    (by decide) (by decide) (by decide) (by decide) (by decide) (by decide)
    (by decide) (by decide)
  exact ⟨h.1, h.2 "origin/master"⟩

/-- Claim C9: TrySelfUpdate performs no filesystem mutation and no process
replacement, and returns success, when the candidate binary is absent at
its expected path or when the candidate's full-content digest equals the
running binary's digest; when the digests differ and the swap script runs
through, its effect trace is exactly an optional backup removal, one
rename of the current binary to the digest-derived backup path, one copy
of the candidate into the original path, and the process-image
replacement. -/
theorem c9_theorem (env : SelfEnv) (p : String) (h1 h2 : List Nat) :
    (env.selfUpdate = true → env.osext = .ok p → env.candidateExists = false →
      trySelfUpdate env = (.ok, []))
    ∧ (env.selfUpdate = true → env.osext = .ok p → env.candidateExists = true →
      env.hashFile p = .ok h1 →
      env.hashFile (env.checkoutPath ++ "/satori-agent") = .ok h2 →
      h1 = h2 → trySelfUpdate env = (.ok, []))
    ∧ (env.selfUpdate = true → env.osext = .ok p → env.candidateExists = true →
      env.hashFile p = .ok h1 →
      env.hashFile (env.checkoutPath ++ "/satori-agent") = .ok h2 →
      h1 ≠ h2 → env.newStillExists = true → env.mvOk = true → env.cpOk = true →
      (trySelfUpdate env).2 =
        (if env.backupExists then [SEffect.remove (p ++ "." ++ hexEncode h1)] else [])
          ++ [SEffect.rename p (p ++ "." ++ hexEncode h1),
              SEffect.copyFile (env.checkoutPath ++ "/satori-agent") p,
              SEffect.exec p]) := by
  refine ⟨?_, ?_, ?_⟩
  · intro hsu hox hce
    unfold trySelfUpdate
    simp [hsu, hox, hce]
  · intro hsu hox hce hh1 hh2 heq
    unfold trySelfUpdate
    simp [hsu, hox, hce, hh1, hh2, heq]
  · intro hsu hox hce hh1 hh2 hne hnse hmv hcp
    unfold trySelfUpdate runSwapScript
    by_cases hbe : env.backupExists = true <;>
      cases hex : env.execOk <;>
        simp [hsu, hox, hce, hh1, hh2, hne, hnse, hmv, hcp, hbe, hex]

/-- Witness for claim C9 at three concrete self-update environments:
candidate absent, candidate byte-identical, and candidate differing (one
remove-free swap with exactly one rename and one copy). -/
theorem c9_witness :
    trySelfUpdate envC9a = (.ok, [])
    ∧ trySelfUpdate envC9b = (.ok, [])
    ∧ (trySelfUpdate envC9c).2 =
        [SEffect.rename "/bin/agent" "/bin/agent.01",
         SEffect.copyFile "cp/satori-agent" "/bin/agent",
         SEffect.exec "/bin/agent"] := by
  refine ⟨?_, ?_, ?_⟩
  · exact (c9_theorem envC9a "/bin/agent" [] []).1 rfl rfl rfl
  · exact (c9_theorem envC9b "/bin/agent" [1] [1]).2.1 rfl rfl rfl rfl rfl rfl
  · have h := (c9_theorem envC9c "/bin/agent" [1] [2]).2.2 rfl rfl rfl (by decide) (by decide)
      (by decide) rfl rfl rfl
    simpa using h

end Satori
